import Mathlib

/-!
# A shallow embedding of the aether_store core

This file embeds, in Lean, the parts of the `aether_store` Rust crate that
its specification's claims speak about: the content-addressed store
(`src/lib.rs`: `AetherVault`), the policy guard (`src/guard.rs`:
`AetherGuard`), the graph evaluator (`src/kernel.rs`: `AetherKernel`) and
the final step of the manifest compiler (`src/orchestrator.rs`:
`AetherOrchestrator::build_app`).

Modelling conventions:

* Rust `u16`/`u8` fields that are only compared for equality or order are
  `Nat`; `i32` values are `Int`, decoded from little-endian byte lists with
  explicit two's-complement arithmetic, and `i32` addition wraps modulo
  `2^32` as a release build does.
* Byte buffers (`Vec<u8>`) are `List Nat`, each entry standing for one byte.
* The sled keyspace (restricted to the logic-atom records the claims touch)
  is an association list, newest binding first, so that store mutation is
  observable as list inequality.
* External collaborators with no algorithmic content in the crate — BLAKE3,
  the blob store, serde's JSON (de)serialisers, reqwest's HTTP fetch, and
  UTF-8 lossy decoding — are fields of an `Env` record and stay abstract;
  every theorem holds for an arbitrary `Env` unless it exhibits a concrete
  counterexample, in which case a concrete `Env` is supplied.
* Rust `?`/early-`return` error flow is `Except` with explicit matching, in
  the order the source performs the checks; a Rust panic (out-of-bounds
  indexing) is `Option.none`.
-/

namespace AetherStore

/-! ## JSON values (`serde_json::Value`)

The crate only ever manipulates integral numbers, so `num` carries an `Int`.
Object field order follows serde's map; keys are unique, and lookup takes
the first binding, which is then the only one. -/

inductive Json where
  | null : Json
  | bool (b : Bool) : Json
  | num (n : Int) : Json
  | str (s : String) : Json
  | arr (items : List Json) : Json
  | obj (fields : List (String × Json)) : Json

/-- `Value::as_array`. -/
def Json.asArray : Json → Option (List Json)
  | .arr l => some l
  | _ => none

/-- Whether `Value::as_array` succeeds. -/
def Json.isArr : Json → Bool
  | .arr _ => true
  | _ => false

/-- `Value::as_i64` (the crate's numbers are integral). -/
def Json.asI64 : Json → Option Int
  | .num n => some n
  | _ => none

/-- `Value::as_str`. -/
def Json.asStr : Json → Option String
  | .str s => some s
  | _ => none

/-- `value[key]` for a `&str` index: the field of an object, `Null` when the
key is absent or the value is not an object. -/
def Json.index (v : Json) (key : String) : Json :=
  match v with
  | .obj fields => (((fields.find? (fun kv => kv.1 == key)).map (fun kv => kv.2))).getD .null
  | _ => .null

/-! ## Strings: Rust's `str::contains(&str)` -/

/-- Whether `needle` occurs as a contiguous run inside `hay`. -/
def charsContain (needle : List Char) : List Char → Bool
  | [] => needle.isEmpty
  | c :: t => needle.isPrefixOf (c :: t) || charsContain needle t

/-- Rust `hay.contains(needle)`: substring containment. -/
def strContains (hay needle : String) : Bool :=
  charsContain needle.toList hay.toList

/-! ## The data model (`src/lib.rs`) -/

/-- `LogicAtom`: the fundamental unit. `op_code` is a `u16` in the source. -/
structure LogicAtom where
  op_code : Nat
  inputs : List String
  storage_ref : String
  context_id : String

/-- `VaultError` (`src/lib.rs`). The dynamic message an `io::Error` or a
serde error contributes is abstracted to the fixed prefix of the `format!`
string. -/
inductive VaultError where
  | storage (msg : String)
  | notFound
  | identityNotFound
  | validation (msg : String)

/-- `KernelError` (`src/kernel.rs`). -/
inductive KernelError where
  | vault (e : VaultError)
  | runtime (msg : String)
  | invalidOpCode (op : Nat)

/-- `IOContract` (`src/io.rs`): `{endpoint, schema, sensitivity}`,
`sensitivity` a `u8`. -/
structure IOContract where
  endpoint : String
  schema : Json
  sensitivity : Nat

/-- The sled keyspace restricted to logic-atom records: an association list,
newest binding first (sled's `insert` overwrites; lookup sees the newest). -/
def Store := List (String × LogicAtom)

/-- `db.get(hash)` deserialised: the newest atom bound to `hash`. -/
def lookupAtom (db : Store) (hash : String) : Option LogicAtom :=
  ((db.find? (fun kv => kv.1 == hash)).map (fun kv => kv.2))

/-- `db.insert(hash, atom)`. -/
def insertAtom (db : Store) (hash : String) (atom : LogicAtom) : Store :=
  (hash, atom) :: db

/-- The external collaborators the crate calls into, kept abstract. -/
structure Env where
  /-- BLAKE3 over the serde serialisation of an atom (`persist`,
  `persist_verified`): the atom's content address. -/
  hash_atom : LogicAtom → String
  /-- BLAKE3 over a byte string given as hex text (the Merkle combine step
  hashes the concatenation of two hex digests). -/
  hash_hex : String → String
  /-- `storage::read_blob`: `none` is the `Err` of the underlying file read. -/
  read_blob : String → Option (List Nat)
  /-- `serde_json::from_slice::<IOContract>`. -/
  parse_contract : List Nat → Option IOContract
  /-- `serde_json::from_slice::<serde_json::Value>`. -/
  parse_json : List Nat → Option Json
  /-- `reqwest::get(url)` followed by `.json()`: the response as structured
  data, or the network/parse error's text. -/
  net_json : String → Except String Json
  /-- `String::from_utf8_lossy`. -/
  utf8_lossy : List Nat → String

/-! ## The policy guard (`src/guard.rs`) -/

/-- `verify_interest_free(rate)`: the source asks Z3 whether `rate == 0` is
satisfiable with `rate` a fixed constant, which holds exactly when the
constant is zero. -/
def verify_interest_free (rate : Int) : Bool :=
  rate == 0

/-- `verify_sovereignty(endpoint, sensitivity)` (`guard.rs` lines 54-60):
sensitivity below 2 always passes; otherwise the endpoint must contain
`"localhost"`, `"127.0.0.1"` or `".my"` as a substring. -/
def verify_sovereignty (endpoint : String) (sensitivity : Nat) : Bool :=
  if 2 ≤ sensitivity then
    strContains endpoint "localhost" || strContains endpoint "127.0.0.1" ||
      strContains endpoint ".my"
  else
    true

/-- `verify_compatibility(atom, input_atoms)` (`guard.rs` lines 11-31).
The source matches on `op_code`: arm `2` checks the filter rules, arm `1`
and the default arm both fall through to `Ok(())`. -/
def verify_compatibility (atom : LogicAtom) (input_atoms : List LogicAtom) :
    Except String Unit :=
  if atom.op_code == 2 then
    match input_atoms with
    | [] => .error "Filter (Op 2) requires at least one input (Source List)"
    | a :: _ =>
      if a.op_code == 1 then
        .error "Type Mismatch: Filter cannot consume integer output of ADD (Op 1)"
      else
        .ok ()
  else
    .ok ()

/-! ## Little-endian 32-bit decoding (`extract_rate`, the ADD opcode) -/

/-- Four little-endian bytes as a two's-complement 32-bit signed integer. -/
def i32_of_le4 (b0 b1 b2 b3 : Nat) : Int :=
  let v : Nat := b0 + 256 * b1 + 65536 * b2 + 16777216 * b3
  if v < 2147483648 then (v : Int) else (v : Int) - 4294967296

/-- `i32` addition as a release build performs it: wrap modulo `2^32`. -/
def i32_wrap (x : Int) : Int :=
  (x + 2147483648) % 4294967296 - 2147483648

/-- `extract_rate(data)` (`lib.rs` lines 370-375): the first four bytes as a
little-endian `i32`, `0` when fewer than four bytes are present. -/
def extract_rate (data : List Nat) : Int :=
  if data.length < 4 then 0
  else i32_of_le4 (data.getD 0 0) (data.getD 1 0) (data.getD 2 0) (data.getD 3 0)

/-! ## The content-addressed store (`src/lib.rs`, `AetherVault`) -/

/-- `persist(atom)` (`lib.rs` lines 91-101): hash the serialised atom, insert
under the hash, return the hash. sled errors aside, it cannot fail. -/
def persist (E : Env) (db : Store) (atom : LogicAtom) : Store × String :=
  let hash := E.hash_atom atom
  (insertAtom db hash atom, hash)

/-- One level of the Merkle fold (`lib.rs` lines 113-123): `chunks(2)`, each
pair hashed as the concatenation of its two hex digests, an odd tail hashed
against itself. -/
def merkle_level (E : Env) : List String → List String
  | [] => []
  | [a] => [E.hash_hex (a ++ a)]
  | a :: b :: rest => E.hash_hex (a ++ b) :: merkle_level E rest

/-- Each Merkle level holds half the previous one, rounded up. -/
theorem merkle_level_length (E : Env) (l : List String) :
    (merkle_level E l).length = (l.length + 1) / 2 := by
  induction l using merkle_level.induct E
  case case1 => simp [merkle_level]
  case case2 => simp [merkle_level]
  case case3 a b rest ih =>
    simp [merkle_level, ih]
    omega

/-- The Merkle `while` loop of `persist_batch` (`lib.rs` lines 111-127): fold
levels until one digest remains. On the empty list the loop body never runs
and the final `current_level[0]` indexes out of bounds — a panic, modelled
as `none`. -/
def merkle_fold (E : Env) : List String → Option String
  | [] => none
  | [x] => some x
  | a :: b :: rest => merkle_fold E (merkle_level E (a :: b :: rest))
termination_by l => l.length
decreasing_by simp [merkle_level_length]; omega

/-- `persist_batch(atoms)` (`lib.rs` lines 104-128): persist each atom in
order, then fold the hash list to a Merkle root. -/
def persist_batch (E : Env) (db : Store) (atoms : List LogicAtom) :
    Store × Option String :=
  let step := atoms.foldl
    (fun (acc : Store × List String) atom =>
      let p := persist E acc.1 atom
      (p.1, acc.2 ++ [p.2]))
    (db, [])
  (step.1, merkle_fold E step.2)

/-- `fetch(hash)` (`lib.rs` lines 131-136). -/
def fetch (db : Store) (hash : String) : Except VaultError LogicAtom :=
  match lookupAtom db hash with
  | some a => .ok a
  | none => .error .notFound

/-- The message of a context-isolation rejection (`lib.rs` lines 166-169);
the `format!` arguments in source order. -/
def context_violation_msg (atom input_atom : LogicAtom) : String :=
  "Context Isolation Violation: Atom '" ++ toString atom.op_code ++ "' (" ++
    atom.context_id ++ ") from '" ++ atom.context_id ++
    "' cannot depend on Atom (" ++ toString input_atom.op_code ++ ") from '" ++
    input_atom.context_id ++ "'"

/-- The input loop of `persist_verified` (`lib.rs` lines 161-175): fetch each
declared input in order; a fetched input whose `context_id` is neither
`"global"` nor the new atom's is a context-isolation violation, a fetch
failure a missing dependency; otherwise the resolved inputs accumulate. -/
def check_inputs (db : Store) (atom : LogicAtom) :
    List String → Except VaultError (List LogicAtom)
  | [] => .ok []
  | input_hash :: rest =>
    match lookupAtom db input_hash with
    | some input_atom =>
      if input_atom.context_id != "global" &&
          input_atom.context_id != atom.context_id then
        .error (.validation (context_violation_msg atom input_atom))
      else
        match check_inputs db atom rest with
        | .error e => .error e
        | .ok tail => .ok (input_atom :: tail)
    | none => .error (.validation ("Missing Dependency: " ++ input_hash))

/-- The two payload-policy checks of `persist_verified` (`lib.rs` lines
143-159): the interest-free law for `op_code` 100, the sovereignty law (after
decoding the I/O contract) for `op_code` 500. -/
def pv_policy (E : Env) (atom : LogicAtom) (blob : List Nat) :
    Except VaultError Unit :=
  if atom.op_code == 100 && !(verify_interest_free (extract_rate blob)) then
    .error (.validation "Violation of Genesis Law: Riba Detected")
  else if atom.op_code == 500 then
    match E.parse_contract blob with
    | some contract =>
      if verify_sovereignty contract.endpoint contract.sensitivity then
        .ok ()
      else
        .error (.validation
          "Violation of Sovereignty Law: Sovereign data must stay in .my or localhost")
    | none => .error (.validation "Invalid IO Contract data")
  else
    .ok ()

/-- All checks of `persist_verified` before the insert (`lib.rs` lines
138-179), in source order: blob load, payload policies, context isolation
over the inputs, then the guard's structural compatibility. -/
def pv_checks (E : Env) (db : Store) (atom : LogicAtom) :
    Except VaultError (List LogicAtom) :=
  match E.read_blob atom.storage_ref with
  | none => .error (.validation "Blob Load Error")
  | some blob =>
    match pv_policy E atom blob with
    | .error e => .error e
    | .ok _ =>
      match check_inputs db atom atom.inputs with
      | .error e => .error e
      | .ok input_atoms =>
        match verify_compatibility atom input_atoms with
        | .error e => .error (.validation e)
        | .ok _ => .ok input_atoms

/-- `persist_verified(atom, guard)` (`lib.rs` lines 138-194): run every
check; only when all pass, hash and insert. The pair's first component is
the keyspace after the call. -/
def persist_verified (E : Env) (db : Store) (atom : LogicAtom) :
    Store × Except VaultError String :=
  match pv_checks E db atom with
  | .error e => (db, .error e)
  | .ok _ =>
    let hash := E.hash_atom atom
    (insertAtom db hash atom, .ok hash)

/-! ## The graph evaluator (`src/kernel.rs`, `AetherKernel`) -/

/-- `resolve_data(atom)` (`kernel.rs` lines 24-28): lazy blob load. -/
def resolve_data (E : Env) (atom : LogicAtom) : Except KernelError (List Nat) :=
  match E.read_blob atom.storage_ref with
  | some d => .ok d
  | none => .error (.runtime "Blob Fetch Error")

/-- `execute(hash)` (`kernel.rs` lines 31-46), the legacy numeric path:
fetch, load the payload, then dispatch — `op_code` 1 adds the two
little-endian `i32` values in the first eight payload bytes, `op_code` 100
returns `0`, anything else is an invalid-opcode error. -/
def execute (E : Env) (db : Store) (hash : String) : Except KernelError Int :=
  match fetch db hash with
  | .error e => .error (.vault e)
  | .ok atom =>
    match resolve_data E atom with
    | .error e => .error e
    | .ok data =>
      if atom.op_code == 1 then
        if data.length < 8 then
          .error (.runtime "Invalid data length for ADD")
        else
          let a := i32_of_le4 (data.getD 0 0) (data.getD 1 0) (data.getD 2 0) (data.getD 3 0)
          let b := i32_of_le4 (data.getD 4 0) (data.getD 5 0) (data.getD 6 0) (data.getD 7 0)
          .ok (i32_wrap (a + b))
      else if atom.op_code == 100 then
        .ok 0
      else
        .error (.invalidOpCode atom.op_code)

/-- `execute_io(hash)` (`kernel.rs` lines 163-180): for an `op_code`-500 atom
decode the I/O contract from the payload, fetch the endpoint, parse the
response as JSON and return it. The contract's `schema` field is never
consulted. -/
def execute_io (E : Env) (db : Store) (hash : String) :
    Except KernelError Json :=
  match fetch db hash with
  | .error e => .error (.vault e)
  | .ok atom =>
    if atom.op_code == 500 then
      match resolve_data E atom with
      | .error e => .error e
      | .ok data =>
        match E.parse_contract data with
        | none => .error (.runtime "IO Contract Parse Error")
        | some contract =>
          match E.net_json contract.endpoint with
          | .error e => .error (.runtime e)
          | .ok response => .ok response
    else
      .error (.invalidOpCode atom.op_code)

/-- The filter closure of the `op_code`-2 arm of `execute_smart`
(`kernel.rs` lines 88-98): `field`, `op`, `val_i`, `val_s` are the values the
source extracts from the decoded filter config before iterating. -/
def filter_pred (field op : String) (val_i : Option Int) (val_s : Option String)
    (item : Json) : Bool :=
  match op with
  | ">" => decide (((Json.index item field).asI64.getD 0) > val_i.getD 0)
  | "<" => decide (((Json.index item field).asI64.getD 0) < val_i.getD 0)
  | "==" => ((Json.index item field).asStr.getD "") == val_s.getD ""
  | "!=" => ((Json.index item field).asStr.getD "") != val_s.getD ""
  | "contains" => strContains ((Json.index item field).asStr.getD "") (val_s.getD "")
  | "not_contains" => !(strContains ((Json.index item field).asStr.getD "") (val_s.getD ""))
  | _ => true

/-- The `op_code`-3 merge (`kernel.rs` lines 105-113): concatenate the
array-valued input results in order, skipping the rest. -/
def merge_arrays : List Json → List Json
  | [] => []
  | r :: rest => (r.asArray.getD []) ++ merge_arrays rest

/-- The dispatch of `execute_smart` (`kernel.rs` lines 68-160) once every
input result is in hand. `hash` is the evaluated atom's own hash (the
synthesis marker and the I/O path reuse it). -/
def exec_op (E : Env) (db : Store) (hash : String) (atom : LogicAtom)
    (input_results : List Json) : Except KernelError Json :=
  match atom.op_code with
  | 1 => .ok (Json.num 0)
  | 2 =>
    match input_results.head? with
    | some list =>
      match list.asArray with
      | some array =>
        match resolve_data E atom with
        | .error e => .error e
        | .ok data =>
          match E.parse_json data with
          | none => .error (.runtime "Filter config parse error")
          | some filter_config =>
            let field := (Json.index filter_config "field").asStr.getD ""
            let op := (Json.index filter_config "op").asStr.getD ""
            let val_i := (Json.index filter_config "val").asI64
            let val_s := (Json.index filter_config "val").asStr
            .ok (Json.arr (array.filter (filter_pred field op val_i val_s)))
      | none => .ok (Json.arr [])
    | none => .ok (Json.arr [])
  | 3 => .ok (Json.arr (merge_arrays input_results))
  | 50 =>
    match resolve_data E atom with
    | .error e => .error e
    | .ok data =>
      match E.parse_json data with
      | none => .error (.runtime "Trigger config parse error")
      | some config => .ok config
  | 100 =>
    match input_results.head? with
    | some res => .ok res
    | none => .ok (Json.obj [("status", Json.str "Audited")])
  | 500 => execute_io E db hash
  | 800 =>
    match input_results.head? with
    | some internal_result =>
      .ok (Json.obj [("origin", Json.str "0xSOVEREIGN_ROOT"),
        ("payload", internal_result),
        ("masked_fields", Json.arr [Json.str "private_logic_trace"])])
    | none => .ok (Json.obj [("error", Json.str "Gateway has no input resonance")])
  | 600 =>
    match resolve_data E atom with
    | .error e => .error e
    | .ok data =>
      .ok (Json.obj [("status", Json.str "SYNTHESIS_PENDING"),
        ("intent", Json.str (E.utf8_lossy data)),
        ("hash", Json.str hash),
        ("type", Json.str "Logic Gap")])
  | _ => .ok Json.null

/-- The fan-out/fan-in barrier of `execute_smart` (`kernel.rs` lines 59-66):
the source joins all input futures and then propagates the first error in
input order, which is observably this sequential collection. -/
def eval_list (f : String → Except KernelError Json) :
    List String → Except KernelError (List Json)
  | [] => .ok []
  | h :: t =>
    match f h with
    | .error e => .error e
    | .ok v =>
      match eval_list f t with
      | .error e => .error e
      | .ok vs => .ok (v :: vs)

/-- `execute_smart(hash)` (`kernel.rs` lines 56-161): fetch the atom,
evaluate every input, then dispatch. Recursion is measured by `fuel`; a
content-addressed store is acyclic, so any `fuel` larger than the graph's
depth leaves the fuel-exhaustion branch unreachable. -/
def execute_smart (E : Env) (db : Store) (fuel : Nat) (hash : String) :
    Except KernelError Json :=
  match fuel with
  | 0 => .error (.runtime "Recursion fuel exhausted")
  | f + 1 =>
    match fetch db hash with
    | .error e => .error (.vault e)
    | .ok atom =>
      match eval_list (fun h => execute_smart E db f h) atom.inputs with
      | .error e => .error e
      | .ok input_results => exec_op E db hash atom input_results

/-- The evaluation of an input list at a given remaining fuel. -/
def eval_inputs (E : Env) (db : Store) (fuel : Nat) (hashes : List String) :
    Except KernelError (List Json) :=
  eval_list (fun h => execute_smart E db fuel h) hashes

/-! ## The manifest compiler's return step (`src/orchestrator.rs`)

`build_app` keeps a `HashMap<String, String>` from node name to produced
hash (`node_map`) and ends with (`orchestrator.rs` lines 122-131):
`node_map.get("root")`, else `node_map.values().last()`, else the empty
string. A `std` `HashMap` iterates in an arbitrary, seed-dependent order, so
the model takes the map's entries *in that iteration order* as its argument:
`lookup_node` (a key lookup) does not depend on the order, the
`values().last()` fallback does. -/

/-- `node_map.get(name)`: order-independent key lookup (node names are
unique keys). -/
def lookup_node (node_map_iter : List (String × String)) (name : String) :
    Option String :=
  ((node_map_iter.find? (fun kv => kv.1 == name)).map (fun kv => kv.2))

/-- The return value of `build_app` given the node map's entries in the hash
map's iteration order. -/
def build_app_return (node_map_iter : List (String × String)) : String :=
  match lookup_node node_map_iter "root" with
  | some h => h
  | none => ((node_map_iter.map (fun kv => kv.2)).getLast?).getD ""

/-! ## Spec-side comparison definitions

These two definitions follow the *specification's words*, not the source;
they exist only to be compared against the source-derived definitions
above. -/

/-- The characters up to and including the first `"://"` removed. -/
def after_scheme : List Char → Option (List Char)
  | ':' :: '/' :: '/' :: rest => some rest
  | _ :: t => after_scheme t
  | [] => none

/-- The host portion of an endpoint string: what follows the scheme
separator (if any) up to the first `/`, `:` or `?`. -/
def hostOf (endpoint : String) : String :=
  String.mk (((after_scheme endpoint.toList).getD endpoint.toList).takeWhile
    (fun c => !(c == '/') && !(c == ':') && !(c == '?')))

/-- Follows the spec's words for the sovereignty law: the endpoint "denotes
localhost/loopback or carries a designated sovereign domain suffix" — its
host is `localhost` or `127.0.0.1`, or ends with the `.my` suffix. -/
def denotes_local_or_sovereign (endpoint : String) : Bool :=
  hostOf endpoint == "localhost" || hostOf endpoint == "127.0.0.1" ||
    ".my".toList.isSuffixOf (hostOf endpoint).toList

/-- Follows the spec's words for I/O schema validation: whether a structured
response conforms to the contract's declared schema. Only the `"type"`
keyword is interpreted — the single schema form the crate itself ever
constructs (`{"type": "array"}` in `loom.rs`); a schema without a known
`"type"` constrains nothing. -/
def schema_allows (schema response : Json) : Bool :=
  match (Json.index schema "type").asStr with
  | some "array" => response.isArr
  | some "object" => (match response with | .obj _ => true | _ => false)
  | some "string" => (match response with | .str _ => true | _ => false)
  | some "number" => (match response with | .num _ => true | _ => false)
  | _ => true

/-! ## Helper lemmas -/

/-- An input list whose members all fetch with a `"global"` or matching
`context_id`. -/
def GoodAll (db : Store) (atom : LogicAtom) (l : List String) : Prop :=
  ∀ g ∈ l, ∃ ga, lookupAtom db g = some ga ∧
    (ga.context_id = "global" ∨ ga.context_id = atom.context_id)

theorem goodall_cons (db : Store) (atom : LogicAtom) (g : String)
    (t : List String) (h : GoodAll db atom (g :: t)) :
    (∃ ga, lookupAtom db g = some ga ∧
      (ga.context_id = "global" ∨ ga.context_id = atom.context_id)) ∧
      GoodAll db atom t :=
  ⟨h g (by simp), fun x hx => h x (by simp [hx])⟩

theorem check_inputs_prefix_error (db : Store) (atom : LogicAtom)
    (pre rest : List String) (e : VaultError) (hpre : GoodAll db atom pre)
    (hrest : check_inputs db atom rest = .error e) :
    check_inputs db atom (pre ++ rest) = .error e := by
  induction pre with
  | nil => simpa using hrest
  | cons g t ih =>
    obtain ⟨⟨ga, hga, hctx⟩, ht⟩ := goodall_cons db atom g t hpre
    have hcond : (ga.context_id != "global" && ga.context_id != atom.context_id) = false := by
      rcases hctx with h | h <;> simp [h]
    simp [check_inputs, hga, hcond, ih ht]

theorem check_inputs_all_ok (db : Store) (atom : LogicAtom) (l : List String)
    (hall : GoodAll db atom l) :
    ∃ ras, check_inputs db atom l = .ok ras := by
  induction l with
  | nil => exact ⟨[], rfl⟩
  | cons g t ih =>
    obtain ⟨⟨ga, hga, hctx⟩, ht⟩ := goodall_cons db atom g t hall
    obtain ⟨ras, hras⟩ := ih ht
    have hcond : (ga.context_id != "global" && ga.context_id != atom.context_id) = false := by
      rcases hctx with h | h <;> simp [h]
    exact ⟨ga :: ras, by simp [check_inputs, hga, hcond, hras]⟩

/-- The accumulating persist loop of `persist_batch`, generalised over the
accumulator. -/
theorem persist_batch_acc (E : Env) (atoms : List LogicAtom) :
    ∀ (db : Store) (hs : List String),
      atoms.foldl
        (fun (acc : Store × List String) atom =>
          let p := persist E acc.1 atom
          (p.1, acc.2 ++ [p.2])) (db, hs) =
      (atoms.foldl (fun d a => insertAtom d (E.hash_atom a) a) db,
        hs ++ atoms.map E.hash_atom) := by
  induction atoms with
  | nil => intro db hs; simp
  | cons a t ih =>
    intro db hs
    rw [List.foldl_cons]
    exact (ih (insertAtom db (E.hash_atom a) a) (hs ++ [E.hash_atom a])).trans (by simp)

/-- The root of a batch is the Merkle fold of the member hashes in order. -/
theorem persist_batch_snd (E : Env) (db : Store) (atoms : List LogicAtom) :
    (persist_batch E db atoms).2 = merkle_fold E (atoms.map E.hash_atom) := by
  simp [persist_batch, persist_batch_acc]

theorem merkle_level_ne_nil (E : Env) (l : List String) (h : l ≠ []) :
    merkle_level E l ≠ [] := by
  cases l with
  | nil => exact absurd rfl h
  | cons a t => cases t <;> simp [merkle_level]

theorem merkle_fold_isSome (E : Env) (l : List String) (h : l ≠ []) :
    (merkle_fold E l).isSome = true := by
  induction l using merkle_fold.induct E with
  | case1 => exact absurd rfl h
  | case2 x => simp [merkle_fold]
  | case3 a b rest ih =>
    rw [merkle_fold]
    exact ih (merkle_level_ne_nil E _ (by simp))

/-- A value that is not an array has no `as_array` view. -/
theorem asArray_eq_none (v : Json) (h : v.isArr = false) : v.asArray = none := by
  cases v <;> simp_all [Json.isArr, Json.asArray]

/-! ## Concrete fixtures for witnesses and counterexamples -/

/-- A concrete environment: every blob reads back (eight ADD bytes under the
ref `"blob8"`, empty otherwise), nothing parses, the network is down. -/
def envW : Env := {
  hash_atom := fun a => "W:" ++ a.context_id,
  hash_hex := fun s => "#" ++ s,
  read_blob := fun r => if r == "blob8" then some [10, 0, 0, 0, 20, 0, 0, 0] else some [],
  parse_contract := fun _ => none,
  parse_json := fun _ => none,
  net_json := fun _ => .error "offline",
  utf8_lossy := fun _ => "" }

/-- `envW` with an unavailable blob store. -/
def envNoBlob : Env := { envW with read_blob := fun _ => none }

/-- An atom of project `"proj1"` depending on the hash `"hB"`. -/
def wAtomA : LogicAtom := ⟨7, ["hB"], "ra", "proj1"⟩

/-- A filter atom with no inputs. -/
def wFilter : LogicAtom := ⟨2, [], "rf", "global"⟩

/-- A scalar-arithmetic atom. -/
def wAdd : LogicAtom := ⟨1, [], "rf", "global"⟩

/-- An I/O atom (any non-ADD op_code works as a filter input). -/
def wIo : LogicAtom := ⟨500, [], "rf", "global"⟩

/-! ## The claims -/

/-- C3: for every failing outcome of `persist_verified`, the keyspace is
unchanged — the atom is inserted only after every check has passed, so no
partial write is observable on error. -/
theorem persist_verified_atomic_on_error (E : Env) (db : Store) (atom : LogicAtom)
    (e : VaultError) (hfail : (persist_verified E db atom).2 = .error e) :
    (persist_verified E db atom).1 = db := by
  unfold persist_verified at hfail ⊢
  cases h : pv_checks E db atom with
  | error e2 => simp [h]
  | ok ras => simp [h] at hfail

/-- C3 witness: a blob-load failure rejects the write and leaves the empty
store empty. -/
theorem persist_verified_atomic_on_error_witness :
    (persist_verified envNoBlob ([] : Store) wAtomA).1 = ([] : Store) :=
  persist_verified_atomic_on_error envNoBlob ([] : Store) wAtomA
    (.validation "Blob Load Error") rfl

/-- C4 counterexample: with sensitivity 2 the source accepts
`http://notlocalhost.example.com/data` — the host is
`notlocalhost.example.com`, which neither denotes localhost/loopback nor
carries the `.my` suffix, yet the substring check finds `"localhost"`
inside it. So "returns false for every other endpoint" fails. -/
theorem verify_sovereignty_substring_cex :
    verify_sovereignty "http://notlocalhost.example.com/data" 2 = true ∧
    denotes_local_or_sovereign "http://notlocalhost.example.com/data" = false :=
  ⟨by decide, by decide⟩

/-- C4 amended: sensitivity below 2 always passes; sensitivity at least 2
passes exactly when the endpoint *contains* `"localhost"`, `"127.0.0.1"` or
`".my"` as a substring — anywhere in the string, not only as the host or as
a domain suffix. -/
theorem verify_sovereignty_characterization :
    (∀ (endpoint : String) (sensitivity : Nat), sensitivity < 2 →
        verify_sovereignty endpoint sensitivity = true)
  ∧ (∀ (endpoint : String) (sensitivity : Nat), 2 ≤ sensitivity →
      (verify_sovereignty endpoint sensitivity = true ↔
        (strContains endpoint "localhost" = true ∨
         strContains endpoint "127.0.0.1" = true ∨
         strContains endpoint ".my" = true))) := by
  constructor
  · intro e s hs
    unfold verify_sovereignty
    rw [if_neg (by omega)]
  · intro e s hs
    unfold verify_sovereignty
    rw [if_pos hs]
    simp [Bool.or_eq_true, or_assoc]

/-- C4 witness: a public endpoint passes at sensitivity 1; a `.my` endpoint
passes at sensitivity 2. -/
theorem verify_sovereignty_characterization_witness :
    verify_sovereignty "http://any.example.com/x" 1 = true ∧
    verify_sovereignty "https://data.gov.my/api" 2 = true :=
  ⟨verify_sovereignty_characterization.1 "http://any.example.com/x" 1 (by decide),
   (verify_sovereignty_characterization.2 "https://data.gov.my/api" 2 (by decide)).mpr
     (Or.inr (Or.inr (by decide)))⟩

/-- C5: the guard's compatibility check rejects a filter atom with no
inputs, rejects one whose first input is a scalar-arithmetic (op 1) atom,
accepts one whose first input carries any other op_code, and imposes no
constraint on atoms of any other op_code. -/
theorem verify_compatibility_filter_rules :
    (∀ atom : LogicAtom, atom.op_code = 2 →
      verify_compatibility atom [] =
        .error "Filter (Op 2) requires at least one input (Source List)")
  ∧ (∀ (atom a : LogicAtom) (rest : List LogicAtom), atom.op_code = 2 → a.op_code = 1 →
      verify_compatibility atom (a :: rest) =
        .error "Type Mismatch: Filter cannot consume integer output of ADD (Op 1)")
  ∧ (∀ (atom a : LogicAtom) (rest : List LogicAtom), atom.op_code = 2 → a.op_code ≠ 1 →
      verify_compatibility atom (a :: rest) = .ok ())
  ∧ (∀ (atom : LogicAtom) (input_atoms : List LogicAtom), atom.op_code ≠ 2 →
      verify_compatibility atom input_atoms = .ok ()) := by
  refine ⟨?_, ?_, ?_, ?_⟩ <;> intros <;> simp_all [verify_compatibility]

/-- C5 witness: the four rules at concrete atoms. -/
theorem verify_compatibility_filter_rules_witness :
    verify_compatibility wFilter [] =
      .error "Filter (Op 2) requires at least one input (Source List)" ∧
    verify_compatibility wFilter [wAdd] =
      .error "Type Mismatch: Filter cannot consume integer output of ADD (Op 1)" ∧
    verify_compatibility wFilter [wIo] = .ok () ∧
    verify_compatibility wAdd [wIo] = .ok () :=
  ⟨verify_compatibility_filter_rules.1 wFilter rfl,
   verify_compatibility_filter_rules.2.1 wFilter wAdd [] rfl rfl,
   verify_compatibility_filter_rules.2.2.1 wFilter wIo [] rfl (by decide),
   verify_compatibility_filter_rules.2.2.2 wAdd [wIo] (by decide)⟩

/-- C2: the context-isolation stage of `persist_verified`. With the blob
resolved and the payload policies passed, an input whose fetched atom's
`context_id` is neither `"global"` nor the new atom's rejects the write with
the context-isolation validation error; an input that cannot be fetched
rejects it with the missing-dependency validation error (in both cases the
first offending input in declaration order, every earlier input fetching
cleanly); and when every input fetches with a `"global"` or matching
context, the stage passes. -/
theorem persist_verified_context_isolation (E : Env) (db : Store)
    (atom : LogicAtom) (blob : List Nat)
    (hblob : E.read_blob atom.storage_ref = some blob)
    (hpol : pv_policy E atom blob = .ok ()) :
    (∀ pre h post ia, atom.inputs = pre ++ h :: post → GoodAll db atom pre →
        lookupAtom db h = some ia → ia.context_id ≠ "global" →
        ia.context_id ≠ atom.context_id →
        (persist_verified E db atom).2 =
          .error (.validation (context_violation_msg atom ia)))
  ∧ (∀ pre h post, atom.inputs = pre ++ h :: post → GoodAll db atom pre →
        lookupAtom db h = none →
        (persist_verified E db atom).2 =
          .error (.validation ("Missing Dependency: " ++ h)))
  ∧ (GoodAll db atom atom.inputs →
        ∃ ras, check_inputs db atom atom.inputs = .ok ras) := by
  refine ⟨?_, ?_, check_inputs_all_ok db atom atom.inputs⟩
  · intro pre h post ia hsplit hpre hia hg hc
    have hcond : (ia.context_id != "global" && ia.context_id != atom.context_id) = true := by
      simp [hg, hc]
    have herr : check_inputs db atom (h :: post) =
        .error (.validation (context_violation_msg atom ia)) := by
      simp [check_inputs, hia, hcond]
    have hall := check_inputs_prefix_error db atom pre (h :: post) _ hpre herr
    simp [persist_verified, pv_checks, hblob, hpol, hsplit, hall]
  · intro pre h post hsplit hpre hnone
    have herr : check_inputs db atom (h :: post) =
        .error (.validation ("Missing Dependency: " ++ h)) := by
      simp [check_inputs, hnone]
    have hall := check_inputs_prefix_error db atom pre (h :: post) _ hpre herr
    simp [persist_verified, pv_checks, hblob, hpol, hsplit, hall]

/-- An atom of project `"proj2"`, stored under `"hB"`. -/
def wAtomB : LogicAtom := ⟨9, [], "rb", "proj2"⟩

/-- A `"global"` atom, stored under `"hG"`. -/
def wAtomGlob : LogicAtom := ⟨9, [], "rg", "global"⟩

/-- A store holding `wAtomB` and `wAtomGlob`. -/
def dbCtx : Store := [("hB", wAtomB), ("hG", wAtomGlob)]

/-- A `"proj1"` atom depending on an absent hash. -/
def wAtomMiss : LogicAtom := ⟨7, ["hMissing"], "rc", "proj1"⟩

/-- A `"proj1"` atom depending on the global atom. -/
def wAtomOk : LogicAtom := ⟨7, ["hG"], "rd", "proj1"⟩

/-- C2 witness: `proj1` depending on `proj2` is rejected with the
context-isolation error, a missing input with the missing-dependency error,
and a dependency on a `"global"` atom passes the stage. -/
theorem persist_verified_context_isolation_witness :
    (persist_verified envW dbCtx wAtomA).2 =
      .error (.validation (context_violation_msg wAtomA wAtomB)) ∧
    (persist_verified envW dbCtx wAtomMiss).2 =
      .error (.validation ("Missing Dependency: " ++ "hMissing")) ∧
    ∃ ras, check_inputs dbCtx wAtomOk wAtomOk.inputs = .ok ras := by
  refine ⟨?_, ?_, ?_⟩
  · exact (persist_verified_context_isolation envW dbCtx wAtomA [] rfl rfl).1
      [] "hB" [] wAtomB rfl (fun g hg => nomatch hg) rfl (by decide) (by decide)
  · exact (persist_verified_context_isolation envW dbCtx wAtomMiss [] rfl rfl).2.1
      [] "hMissing" [] rfl (fun g hg => nomatch hg) rfl
  · exact (persist_verified_context_isolation envW dbCtx wAtomOk [] rfl rfl).2.2
      (by intro g hg
          have hgc : g = "hG" := by simpa [wAtomOk] using hg
          subst hgc
          exact ⟨wAtomGlob, rfl, Or.inl rfl⟩)

/-- C6: a three-atom batch persists its members in order and returns the
Merkle root `hash(hash(h1 ++ h2) ++ hash(h3 ++ h3))` — the odd-count
duplication rule applied to the third hash. -/
theorem persist_batch_merkle_three (E : Env) (db : Store) (a b c : LogicAtom) :
    (persist_batch E db [a, b, c]).2 =
      some (E.hash_hex (E.hash_hex (E.hash_atom a ++ E.hash_atom b) ++
        E.hash_hex (E.hash_atom c ++ E.hash_atom c))) ∧
    (persist_batch E db [a, b, c]).1 =
      insertAtom (insertAtom (insertAtom db (E.hash_atom a) a)
        (E.hash_atom b) b) (E.hash_atom c) c := by
  constructor
  · rw [persist_batch_snd]
    simp [merkle_fold, merkle_level]
  · rfl

/-- C9: the empty batch reaches the out-of-bounds index (no root and no
error — a panic, `none` here); every non-empty batch returns a root. -/
theorem persist_batch_empty_panics (E : Env) (db : Store) :
    (persist_batch E db []).2 = none ∧
    ∀ atoms : List LogicAtom, atoms ≠ [] →
      ((persist_batch E db atoms).2).isSome = true := by
  constructor
  · rw [persist_batch_snd]
    simp [merkle_fold]
  · intro atoms h
    rw [persist_batch_snd]
    exact merkle_fold_isSome E _ (by simpa using h)

/-- C9 witness: a one-atom batch returns a root. -/
theorem persist_batch_empty_panics_witness :
    ((persist_batch envW ([] : Store) [wAtomB]).2).isSome = true :=
  (persist_batch_empty_panics envW ([] : Store)).2 [wAtomB] (by simp)

/-- A financial (op 100) atom stored under `"h100"`. -/
def wFin : LogicAtom := ⟨100, [], "r0", "global"⟩

/-- An ADD atom whose blob holds `[10,0,0,0,20,0,0,0]` under `envW`. -/
def wAddFull : LogicAtom := ⟨1, [], "blob8", "global"⟩

/-- An ADD atom whose blob is empty under `envW`. -/
def wAddShort : LogicAtom := ⟨1, [], "r0", "global"⟩

/-- An atom of an op_code the legacy evaluator does not know. -/
def wOther : LogicAtom := ⟨999, [], "r0", "global"⟩

/-- A store exercising every arm of the legacy evaluator. -/
def dbExec : Store :=
  [("ha", wAddFull), ("hs", wAddShort), ("hx", wOther), ("h100", wFin)]

/-- C7 counterexample: the claim says every op_code other than the
scalar-arithmetic one is an invalid-operation error, but the source's
`100 => Ok(0)` arm returns the scalar `0` for a financial atom. -/
theorem execute_op100_returns_zero_cex :
    execute envW dbExec "h100" = .ok 0 ∧
    ∀ e : KernelError, (Except.ok (0 : Int) : Except KernelError Int) ≠ .error e :=
  ⟨rfl, fun _ h => Except.noConfusion h⟩

/-- C7 amended: op 1 decodes two little-endian `i32` values from the first
eight payload bytes and returns their (wrapping) sum, a payload shorter
than eight bytes being a runtime error; op 100 returns `0`; every op_code
other than 1 and 100 is an invalid-operation error. -/
theorem execute_legacy_dispatch (E : Env) (db : Store) (hash : String)
    (atom : LogicAtom) (data : List Nat)
    (hfetch : lookupAtom db hash = some atom)
    (hblob : E.read_blob atom.storage_ref = some data) :
    (atom.op_code = 1 → data.length < 8 →
      execute E db hash = .error (.runtime "Invalid data length for ADD"))
  ∧ (atom.op_code = 1 → 8 ≤ data.length →
      execute E db hash = .ok (i32_wrap
        (i32_of_le4 (data.getD 0 0) (data.getD 1 0) (data.getD 2 0) (data.getD 3 0) +
          i32_of_le4 (data.getD 4 0) (data.getD 5 0) (data.getD 6 0) (data.getD 7 0))))
  ∧ (atom.op_code = 100 → execute E db hash = .ok 0)
  ∧ (atom.op_code ≠ 1 → atom.op_code ≠ 100 →
      execute E db hash = .error (.invalidOpCode atom.op_code)) := by
  refine ⟨?_, ?_, ?_, ?_⟩
  · intro h1 h2
    simp [execute, fetch, hfetch, resolve_data, hblob, h1, h2]
  · intro h1 h2
    simp [execute, fetch, hfetch, resolve_data, hblob, h1, Nat.not_lt.mpr h2]
  · intro h1
    simp [execute, fetch, hfetch, resolve_data, hblob, h1]
  · intro h1 h2
    simp [execute, fetch, hfetch, resolve_data, hblob, h1, h2]

/-- C7 witness: `[10,0,0,0,20,0,0,0]` evaluates to 30, a short payload to
the runtime error, an unknown op_code to the invalid-operation error. -/
theorem execute_legacy_dispatch_witness :
    execute envW dbExec "ha" = .ok 30 ∧
    execute envW dbExec "hs" = .error (.runtime "Invalid data length for ADD") ∧
    execute envW dbExec "hx" = .error (.invalidOpCode 999) := by
  refine ⟨?_, ?_, ?_⟩
  · have h := (execute_legacy_dispatch envW dbExec "ha" wAddFull
      [10, 0, 0, 0, 20, 0, 0, 0] rfl rfl).2.1 rfl (by decide)
    exact h.trans (congrArg Except.ok (by decide))
  · exact (execute_legacy_dispatch envW dbExec "hs" wAddShort [] rfl rfl).1 rfl (by decide)
  · exact (execute_legacy_dispatch envW dbExec "hx" wOther [] rfl rfl).2.2.2
      (by decide) (by decide)

/-- `envW` with a decodable I/O contract (declared schema
`{"type": "array"}`, sensitivity 2, localhost endpoint) and a network that
answers the non-array value `42`. -/
def cexEnvIo : Env := { envW with
  parse_contract := fun _ =>
    some ⟨"http://localhost:8080/balance", Json.obj [("type", Json.str "array")], 2⟩,
  net_json := fun _ => .ok (Json.num 42) }

/-- An I/O atom stored under `"h500"`. -/
def wIoAtom : LogicAtom := ⟨500, [], "rio", "global"⟩

/-- A store holding only the I/O atom. -/
def dbIo : Store := [("h500", wIoAtom)]

/-- C1 counterexample: the endpoint's response `42` violates the contract's
declared `{"type": "array"}` schema, yet `execute_io` returns it as the
subtree's result instead of failing — no schema validation happens. -/
theorem execute_io_ignores_schema_cex :
    execute_io cexEnvIo dbIo "h500" = .ok (Json.num 42) ∧
    schema_allows (Json.obj [("type", Json.str "array")]) (Json.num 42) = false :=
  ⟨rfl, rfl⟩

/-- C1 amended: for an op-500 atom, `execute_io` (and `execute_smart`, which
dispatches op 500 to it) decodes the contract, fetches the endpoint and
returns the parsed response verbatim; the contract's `schema` field is
never consulted, so a non-conforming response propagates as the result. -/
theorem execute_io_returns_response_unchecked (E : Env) (db : Store)
    (hash : String) (atom : LogicAtom) (data : List Nat) (contract : IOContract)
    (response : Json)
    (hfetch : lookupAtom db hash = some atom) (hop : atom.op_code = 500)
    (hblob : E.read_blob atom.storage_ref = some data)
    (hparse : E.parse_contract data = some contract)
    (hnet : E.net_json contract.endpoint = .ok response) :
    execute_io E db hash = .ok response ∧
    (∀ fuel, atom.inputs = [] →
      execute_smart E db (fuel + 1) hash = .ok response) := by
  have h1 : execute_io E db hash = .ok response := by
    simp [execute_io, fetch, hfetch, hop, resolve_data, hblob, hparse, hnet]
  refine ⟨h1, fun fuel hin => ?_⟩
  simp [execute_smart, fetch, hfetch, hin, eval_list, exec_op, hop, h1]

/-- C1 witness: the concrete schema-violating response is returned by both
evaluator entry points. -/
theorem execute_io_returns_response_unchecked_witness :
    execute_io cexEnvIo dbIo "h500" = .ok (Json.num 42) ∧
    execute_smart cexEnvIo dbIo 1 "h500" = .ok (Json.num 42) := by
  have h := execute_io_returns_response_unchecked cexEnvIo dbIo "h500" wIoAtom []
    ⟨"http://localhost:8080/balance", Json.obj [("type", Json.str "array")], 2⟩
    (Json.num 42) rfl rfl rfl rfl rfl
  exact ⟨h.1, h.2 0 rfl⟩

/-- C8: the tail of `build_app` returns the `"root"` entry when present and
the empty string when the map is empty, but its fallback is
`HashMap::values().last()` — dependent on the hash map's iteration order.
The same node map (the two argument lists are permutations of each other)
yields `"h2"` under one admissible order and `"h1"` under the other, so
"the hash of the last processed node" is not what the code guarantees. -/
theorem build_app_return_order_dependent :
    build_app_return [("alpha", "h1"), ("beta", "h2")] = "h2" ∧
    build_app_return [("beta", "h2"), ("alpha", "h1")] = "h1" ∧
    [("alpha", "h1"), ("beta", "h2")].Perm [("beta", "h2"), ("alpha", "h1")] ∧
    build_app_return [("beta", "h2"), ("root", "hr")] = "hr" ∧
    build_app_return ([] : List (String × String)) = "" :=
  ⟨rfl, rfl, List.Perm.swap ("beta", "h2") ("alpha", "h1") [], rfl, rfl⟩

/-- A filter atom whose single input is the non-array atom `wOther`. -/
def wFilterIn : LogicAtom := ⟨2, ["hx"], "rf", "global"⟩

/-- A store with the one-input filter atom and its non-array input. -/
def dbF2 : Store := [("hf2", wFilterIn), ("hx", wOther)]

/-- C10: in `execute_smart`, a filter atom with no inputs, or whose first
input evaluates to a non-array value, evaluates to the empty array rather
than an error; and inside a filter an element lacking the configured field
is compared as the number `0` under `>`/`<` and as the empty string under
the string operators, rather than being rejected. -/
theorem execute_smart_filter_permissive (E : Env) (db : Store) :
    (∀ fuel hash atom, lookupAtom db hash = some atom → atom.op_code = 2 →
        atom.inputs = [] →
        execute_smart E db (fuel + 1) hash = .ok (Json.arr []))
  ∧ (∀ fuel hash atom v rest, lookupAtom db hash = some atom → atom.op_code = 2 →
        eval_inputs E db fuel atom.inputs = .ok (v :: rest) → v.isArr = false →
        execute_smart E db (fuel + 1) hash = .ok (Json.arr []))
  ∧ (∀ (field : String) (item : Json) (k : Int) (s : String),
        Json.index item field = Json.null →
        (filter_pred field ">" (some k) none item = decide ((0 : Int) > k) ∧
         filter_pred field "<" (some k) none item = decide ((0 : Int) < k) ∧
         filter_pred field "==" none (some s) item = (("" : String) == s) ∧
         filter_pred field "!=" none (some s) item = (("" : String) != s) ∧
         filter_pred field "contains" none (some s) item = strContains "" s ∧
         filter_pred field "not_contains" none (some s) item = !(strContains "" s))) := by
  refine ⟨?_, ?_, ?_⟩
  · intro fuel hash atom hfetch hop hin
    simp [execute_smart, fetch, hfetch, hin, eval_list, exec_op, hop]
  · intro fuel hash atom v rest hfetch hop heval hv
    have hna := asArray_eq_none v hv
    unfold eval_inputs at heval
    simp [execute_smart, fetch, hfetch, heval, exec_op, hop, hna]
  · intro field item k s hnull
    refine ⟨?_, ?_, ?_, ?_, ?_, ?_⟩ <;>
      simp [filter_pred, hnull, Json.asI64, Json.asStr]

/-- C10 witness: a no-input filter and a filter over a non-array input both
yield `[]`; an element without the `"built"` field fails `built > 2020`
(compared as `0`). -/
theorem execute_smart_filter_permissive_witness :
    execute_smart envW [("hf", wFilter)] 1 "hf" = .ok (Json.arr []) ∧
    execute_smart envW dbF2 2 "hf2" = .ok (Json.arr []) ∧
    filter_pred "built" ">" (some 2020) none
      (Json.obj [("location", Json.str "KL")]) = false := by
  refine ⟨?_, ?_, ?_⟩
  · exact (execute_smart_filter_permissive envW [("hf", wFilter)]).1 0 "hf" wFilter
      rfl rfl rfl
  · exact (execute_smart_filter_permissive envW dbF2).2.1 1 "hf2" wFilterIn
      Json.null [] rfl rfl rfl rfl
  · have h := ((execute_smart_filter_permissive envW ([] : Store)).2.2 "built"
      (Json.obj [("location", Json.str "KL")]) 2020 "" rfl).1
    exact h.trans (by decide)

end AetherStore
